import Mathlib

/-!
Shallow embedding of the Nordik-Data-Job-Intel front-end logic
(src/App.tsx, src/components/JobCard.tsx, src/services/geminiService.ts,
src/types.ts), together with theorems settling the specification claims
about the Record Reconciler, the Apply-Link Resolver, the presentation
tier helpers, the status log, and the error-handling paths.

Modelling conventions:
* JavaScript strings are Lean `String`s, JS numbers that the producer
  contract declares integral (`match_score`) are `Int`, and `job_age_hours`
  (an arbitrary JS number) is `Rat`.
* `new Date(s).getTime()` is an external platform primitive; it is passed
  in as an uninterpreted function `getTime : String → Int` giving the
  parsed instant in milliseconds (claims quantify over it, covering every
  consistent parse of valid timestamps).
* `JSON.parse` and the Gemini network call are external; their outcomes
  are parameters of the embedded `scanJobs`.
* JS `Array.prototype.sort` with a consistent comparator `c` produces a
  stable reordering that is sorted with respect to `fun a b => c a b ≤ 0`;
  it is embedded as `List.mergeSort` over that boolean relation.
-/

/-- The `EmploymentType` enum from src/types.ts. -/
inductive EmploymentType
  | permanent
  | contract
  | unknown
deriving DecidableEq, Repr

/-- The `SeniorityLevel` enum from src/types.ts. -/
inductive SeniorityLevel
  | junior
  | mid
  | senior
  | unknown
deriving DecidableEq, Repr

/-- The `JobAlert` record interface from src/types.ts. -/
structure JobAlert where
  job_title : String
  company : String
  primary_role : String
  location : String
  employment_type : EmploymentType
  seniority : SeniorityLevel
  publish_date_utc : String
  job_age_hours : Rat
  match_score : Int
  key_skills : List String
  source : String
  apply_url : String
  alert_message_en : String
  alert_message_sv : String
deriving DecidableEq, Repr

/-- The comparator passed to `allJobs.sort` in `mergeAndSortJobs`
(src/App.tsx): newer publish instant first, then higher match score.
`getTime` stands for the platform primitive `new Date(·).getTime()`. -/
def jobComparator (getTime : String → Int) (a b : JobAlert) : Int :=
  let dateA := getTime a.publish_date_utc
  let dateB := getTime b.publish_date_utc
  if dateA ≠ dateB then
    dateB - dateA
  else
    b.match_score - a.match_score

/-- Record `a` may precede `b` in the sorted output exactly when the comparator
is non-positive on the pair. -/
def jobLe (getTime : String → Int) (a b : JobAlert) : Bool :=
  jobComparator getTime a b ≤ 0

/-- Function `mergeAndSortJobs` from src/App.tsx: concatenate the new batch in
front of the current collection and sort with `jobComparator`. -/
def mergeAndSortJobs (getTime : String → Int)
    (newJobs currentJobs : List JobAlert) : List JobAlert :=
  (newJobs ++ currentJobs).mergeSort (jobLe getTime)

theorem jobLe_trans (getTime : String → Int) (a b c : JobAlert) :
    jobLe getTime a b → jobLe getTime b c → jobLe getTime a c := by
  simp only [jobLe, jobComparator, decide_eq_true_eq]
  intro hab hbc
  by_cases h1 : getTime a.publish_date_utc = getTime b.publish_date_utc <;>
    by_cases h2 : getTime b.publish_date_utc = getTime c.publish_date_utc <;>
      simp [h1, h2] at hab hbc ⊢ <;> omega

theorem jobLe_total (getTime : String → Int) (a b : JobAlert) :
    jobLe getTime a b || jobLe getTime b a := by
  simp only [jobLe, jobComparator, Bool.or_eq_true, decide_eq_true_eq]
  by_cases h : getTime a.publish_date_utc = getTime b.publish_date_utc <;>
    simp [h, eq_comm] <;> omega

/-- C1. Order invariant of the Record Reconciler: in the output of
`mergeAndSortJobs`, whenever record `A` appears before record `B`, either
`A`'s publish instant is strictly later than `B`'s, or the instants are
equal and `A.match_score ≥ B.match_score`. In particular a fresher record
always ranks above an older one regardless of score. -/
theorem mergeAndSortJobs_order_invariant (getTime : String → Int)
    (newJobs currentJobs : List JobAlert) :
    (mergeAndSortJobs getTime newJobs currentJobs).Pairwise
      (fun a b =>
        getTime a.publish_date_utc > getTime b.publish_date_utc ∨
          (getTime a.publish_date_utc = getTime b.publish_date_utc ∧
            a.match_score ≥ b.match_score)) := by
  have hs := List.sorted_mergeSort
    (jobLe_trans getTime) (jobLe_total getTime) (newJobs ++ currentJobs)
  refine hs.imp ?_
  intro a b hab
  simp only [jobLe, jobComparator, decide_eq_true_eq] at hab
  by_cases h : getTime a.publish_date_utc = getTime b.publish_date_utc
  · exact Or.inr ⟨h, by simp [h] at hab; omega⟩
  · refine Or.inl ?_
    simp [h] at hab
    omega

/-- C2. Union completeness of the Record Reconciler: the output of
`mergeAndSortJobs` is a permutation of `newJobs ++ currentJobs` (every
input record appears in it with all its fields unchanged, duplicates
included, nothing removed) and its length is exactly `m + n`. The
operation is total over all lists, including empty ones, by construction. -/
theorem mergeAndSortJobs_union_complete (getTime : String → Int)
    (newJobs currentJobs : List JobAlert) :
    List.Perm (mergeAndSortJobs getTime newJobs currentJobs)
        (newJobs ++ currentJobs) ∧
      (mergeAndSortJobs getTime newJobs currentJobs).length =
        newJobs.length + currentJobs.length := by
  constructor
  · exact List.mergeSort_perm (newJobs ++ currentJobs) (jobLe getTime)
  · simp [mergeAndSortJobs]

/-! ## JobCard helpers (src/components/JobCard.tsx) -/

/-- Characters left unescaped by the platform primitive
`encodeURIComponent`: ASCII letters, digits, and `- _ . ! ~ * ' ( )`
(named here by code point). -/
def keepLiteral (c : Char) : Bool :=
  let n := c.toNat
  (0x41 ≤ n && n ≤ 0x5A) || (0x61 ≤ n && n ≤ 0x7A) || (0x30 ≤ n && n ≤ 0x39) ||
  n == 0x2D || n == 0x5F || n == 0x2E || n == 0x21 || n == 0x7E || n == 0x2A ||
  n == 0x27 || n == 0x28 || n == 0x29

/-- UTF-8 encoding of a code point, as a list of byte values. -/
def utf8Bytes (n : Nat) : List Nat :=
  if n < 0x80 then [n]
  else if n < 0x800 then [0xC0 + n / 0x40, 0x80 + n % 0x40]
  else if n < 0x10000 then
    [0xE0 + n / 0x1000, 0x80 + n / 0x40 % 0x40, 0x80 + n % 0x40]
  else
    [0xF0 + n / 0x40000, 0x80 + n / 0x1000 % 0x40, 0x80 + n / 0x40 % 0x40,
      0x80 + n % 0x40]

/-- Uppercase hexadecimal digit for a value below 16. -/
def hexDigit (n : Nat) : Char :=
  if n < 10 then Char.ofNat (0x30 + n) else Char.ofNat (0x37 + n)

/-- Percent escape of one byte (0x25 is the percent sign). -/
def percentEscape (b : Nat) : List Char :=
  [Char.ofNat 0x25, hexDigit (b / 16), hexDigit (b % 16)]

/-- Percent-escape a list of byte values. -/
def percentEscapeAll : List Nat → List Char
  | [] => []
  | b :: bs => percentEscape b ++ percentEscapeAll bs

/-- Character stream of `encodeURIComponent`. -/
def encodeChars : List Char → List Char
  | [] => []
  | c :: cs =>
    (if keepLiteral c then [c] else percentEscapeAll (utf8Bytes c.toNat)) ++
      encodeChars cs

/-- The platform primitive `encodeURIComponent`, embedded directly:
unreserved characters pass through, every other character is UTF-8
percent-escaped with uppercase hex digits. -/
def encodeURIComponent (s : String) : String :=
  String.mk (encodeChars s.data)

/-- One character of the platform primitive
`String.prototype.toLowerCase`, covering the ASCII and Latin-1 uppercase
ranges (sufficient for every source keyword the resolver inspects,
including U+00D6 in "Arbetsförmedlingen"; 0xD7 is the multiplication
sign, which has no lowercase form). -/
def jsCharToLower (c : Char) : Char :=
  let n := c.toNat
  if 0x41 ≤ n && n ≤ 0x5A then Char.ofNat (n + 0x20)
  else if (0xC0 ≤ n && n ≤ 0xDE) && n != 0xD7 then Char.ofNat (n + 0x20)
  else c

/-- The platform primitive `String.prototype.toLowerCase`. -/
def jsToLowerCase (s : String) : String :=
  String.mk (s.data.map jsCharToLower)

/-- Substring test on character lists, as performed by the platform
primitive `String.prototype.includes`. -/
def listIncludes : List Char → List Char → Bool
  | [], pat => pat.isEmpty
  | c :: t, pat => pat.isPrefixOf (c :: t) || listIncludes t pat

/-- The platform primitive `String.prototype.includes`. -/
def strIncludes (s pat : String) : Bool :=
  listIncludes s.data pat.data

/-- Function `getScoreColor` from src/components/JobCard.tsx: the CSS class
string chosen for a match score. -/
def getScoreColor (score : Int) : String :=
  if score ≥ 90 then "text-emerald-400 border-emerald-500/50 bg-emerald-950/20"
  else if score ≥ 75 then "text-blue-400 border-blue-500/50 bg-blue-950/20"
  else "text-yellow-400 border-yellow-500/50 bg-yellow-950/20"

/-- The badge element returned by `getAgeBadge`, abstracted to its kind
and the number it displays (the JSX markup around them is styling). -/
inductive AgeBadge
  | newBadge (hours : Rat)
  | recentBadge (hours : Rat)
  | agedBadge (days : Int)
deriving DecidableEq, Repr

/-- Function `getAgeBadge` from src/components/JobCard.tsx: "New (Nh)" for ≤ 24
hours, "Recent (Nh)" for ≤ 48 hours, otherwise "Nd old" with
`Math.floor(hours/24)` days. -/
def getAgeBadge (hours : Rat) : AgeBadge :=
  if hours ≤ 24 then .newBadge hours
  else if hours ≤ 48 then .recentBadge hours
  else .agedBadge (Rat.floor (hours / 24))

/-- The guard of the fallback branch in `handleApply`
(src/components/JobCard.tsx): URL missing, shorter than 5 characters, or
containing the placeholder domain. -/
def fallbackTriggered (job : JobAlert) : Bool :=
  job.apply_url == "" || job.apply_url.length < 5 ||
    strIncludes job.apply_url "example.com"

/-- The fallback query string: URL-encoding of the job title, a space,
and the company name. -/
def fallbackQuery (job : JobAlert) : String :=
  encodeURIComponent (job.job_title ++ " " ++ job.company)

/-- The fallback location string: URL-encoding of the location, which
defaults to Sweden when the field is empty. -/
def fallbackLocation (job : JobAlert) : String :=
  encodeURIComponent (if job.location == "" then "Sweden" else job.location)

/-- The lower-cased source string inspected by the fallback (on a
string-typed field the JS guard against undefined is the identity). -/
def lowerSource (job : JobAlert) : String :=
  jsToLowerCase job.source

/-- The URL computed by `handleApply` in src/components/JobCard.tsx
before it is passed to `window.open` (the one side effect, which stays at
the call site). -/
def resolveApplyUrl (job : JobAlert) : String :=
  if fallbackTriggered job then
    if strIncludes (lowerSource job) "linkedin" then
      "https://www.linkedin.com/jobs/search/?keywords=" ++ fallbackQuery job ++
        "&location=" ++ fallbackLocation job
    else if strIncludes (lowerSource job) "arbetsförmedlingen" ||
        strIncludes (lowerSource job) "platsbanken" then
      "https://platsbanken.arbetsformedlingen.se/platsannonser/sok?q=" ++
        fallbackQuery job
    else if strIncludes (lowerSource job) "indeed" then
      "https://se.indeed.com/jobs?q=" ++ fallbackQuery job ++ "&l=" ++
        fallbackLocation job
    else
      "https://www.google.com/search?q=" ++ fallbackQuery job ++ "+job+" ++
        fallbackLocation job
  else
    job.apply_url

/-- C6. The score-tier and age-tier mappings are pure total functions
matching the stated thresholds: score ≥ 90 selects the "high" (emerald)
class, 75 ≤ score < 90 the "medium" (blue) class, score < 75 the "low"
(yellow) class; ageHours ≤ 24 is "new", 24 < ageHours ≤ 48 is "recent",
ageHours > 48 is "aged" displaying `floor(ageHours/24)` whole days — so
24 h is "new", 25 h is "recent", and 49 h is "aged" with day count 2.
Negative or extreme values map via the same comparisons. -/
theorem tier_mappings :
    (∀ s : Int,
      (getScoreColor s =
          "text-emerald-400 border-emerald-500/50 bg-emerald-950/20" ↔
        90 ≤ s) ∧
      (getScoreColor s =
          "text-blue-400 border-blue-500/50 bg-blue-950/20" ↔
        75 ≤ s ∧ s < 90) ∧
      (getScoreColor s =
          "text-yellow-400 border-yellow-500/50 bg-yellow-950/20" ↔
        s < 75)) ∧
    (∀ h : Rat,
      (getAgeBadge h = AgeBadge.newBadge h ↔ h ≤ 24) ∧
      (getAgeBadge h = AgeBadge.recentBadge h ↔ 24 < h ∧ h ≤ 48) ∧
      (getAgeBadge h = AgeBadge.agedBadge (Rat.floor (h / 24)) ↔ 48 < h)) ∧
    getAgeBadge 24 = AgeBadge.newBadge 24 ∧
    getAgeBadge 25 = AgeBadge.recentBadge 25 ∧
    getAgeBadge 49 = AgeBadge.agedBadge 2 := by
  refine ⟨?_, ?_, by norm_num [getAgeBadge], by norm_num [getAgeBadge],
    by norm_num [getAgeBadge, Rat.floor_def']⟩
  · intro s
    unfold getScoreColor
    split_ifs with h1 h2
    · refine ⟨⟨fun _ => h1, fun _ => rfl⟩, ?_, ?_⟩
      · exact ⟨fun hc => absurd hc (by decide), fun hr => by omega⟩
      · exact ⟨fun hc => absurd hc (by decide), fun hr => by omega⟩
    · refine ⟨?_, ⟨fun _ => by omega, fun _ => rfl⟩, ?_⟩
      · exact ⟨fun hc => absurd hc (by decide), fun hr => by omega⟩
      · exact ⟨fun hc => absurd hc (by decide), fun hr => by omega⟩
    · refine ⟨?_, ?_, ⟨fun _ => by omega, fun _ => rfl⟩⟩
      · exact ⟨fun hc => absurd hc (by decide), fun hr => by omega⟩
      · exact ⟨fun hc => absurd hc (by decide), fun hr => by omega⟩
  · intro h
    unfold getAgeBadge
    split_ifs with h1 h2
    · refine ⟨⟨fun _ => h1, fun _ => rfl⟩, ?_, ?_⟩
      · exact ⟨fun hc => absurd hc (by simp), fun hr => absurd h1 (by
          exact not_le.mpr hr.1)⟩
      · exact ⟨fun hc => absurd hc (by simp), fun hr => absurd h1 (by
          exact not_le.mpr (lt_trans (by norm_num) hr))⟩
    · refine ⟨?_, ⟨fun _ => ⟨not_le.mp h1, h2⟩, fun _ => rfl⟩, ?_⟩
      · exact ⟨fun hc => absurd hc (by simp), fun hr => absurd hr (by
          exact not_le.mpr (not_le.mp h1))⟩
      · exact ⟨fun hc => absurd hc (by simp), fun hr => absurd h2 (by
          exact not_le.mpr hr)⟩
    · refine ⟨?_, ?_, ⟨fun _ => not_le.mp h2, fun _ => rfl⟩⟩
      · exact ⟨fun hc => absurd hc (by simp), fun hr => absurd hr (by
          exact not_le.mpr (lt_trans (by norm_num) (not_le.mp h2)))⟩
      · exact ⟨fun hc => absurd hc (by simp), fun hr => absurd hr.2 (by
          exact not_le.mpr (not_le.mp h2))⟩

/-- C3. Trusted pass-through of the Apply-Link Resolver: whenever
`apply_url` is non-empty, at least 5 characters long, and does not
contain the substring "example.com", `handleApply` opens it verbatim and
the fallback construction is not used. -/
theorem resolve_trusted_passthrough (job : JobAlert)
    (h1 : job.apply_url ≠ "") (h2 : 5 ≤ job.apply_url.length)
    (h3 : strIncludes job.apply_url "example.com" = false) :
    resolveApplyUrl job = job.apply_url ∧ fallbackTriggered job = false := by
  have hf : fallbackTriggered job = false := by
    unfold fallbackTriggered
    simp [h1, h3]
    omega
  exact ⟨by simp [resolveApplyUrl, hf], hf⟩

/-- A concrete record exercising the trusted pass-through: the spec's
example URL "https://company.example/apply/123". -/
def passthroughJob : JobAlert :=
  { job_title := "Data Engineer", company := "Acme",
    primary_role := "Data Engineer", location := "Stockholm",
    employment_type := .permanent, seniority := .mid,
    publish_date_utc := "2025-10-01T08:00:00Z", job_age_hours := 5,
    match_score := 82, key_skills := ["SQL"], source := "LinkedIn",
    apply_url := "https://company.example/apply/123",
    alert_message_en := "New Data Engineer role at Acme.",
    alert_message_sv := "Ny Data Engineer-roll hos Acme." }

theorem resolve_trusted_passthrough_witness :
    resolveApplyUrl passthroughJob = "https://company.example/apply/123" ∧
      fallbackTriggered passthroughJob = false :=
  resolve_trusted_passthrough passthroughJob (by decide) (by decide)
    (by decide)

/-- C4. Fallback construction of the Apply-Link Resolver: when the
fallback triggers, `source` is inspected lower-cased and in order —
"linkedin" gives the LinkedIn job-search URL over the encoded
"title company" query and the location; otherwise "arbetsförmedlingen"
or "platsbanken" gives the Platsbanken search URL over the query only
(location unused); otherwise "indeed" gives the Indeed Sweden URL over
query and location; otherwise the generic web-search URL for
"query job location". The location defaults to "Sweden" when
`job.location` is empty (built into `fallbackLocation`). -/
theorem resolve_fallback_branches (job : JobAlert)
    (h : fallbackTriggered job = true) :
    (strIncludes (lowerSource job) "linkedin" = true →
        resolveApplyUrl job =
          "https://www.linkedin.com/jobs/search/?keywords=" ++
            fallbackQuery job ++ "&location=" ++ fallbackLocation job) ∧
    (strIncludes (lowerSource job) "linkedin" = false →
      (strIncludes (lowerSource job) "arbetsförmedlingen" = true ∨
          strIncludes (lowerSource job) "platsbanken" = true) →
        resolveApplyUrl job =
          "https://platsbanken.arbetsformedlingen.se/platsannonser/sok?q=" ++
            fallbackQuery job) ∧
    (strIncludes (lowerSource job) "linkedin" = false →
      strIncludes (lowerSource job) "arbetsförmedlingen" = false →
      strIncludes (lowerSource job) "platsbanken" = false →
      strIncludes (lowerSource job) "indeed" = true →
        resolveApplyUrl job =
          "https://se.indeed.com/jobs?q=" ++ fallbackQuery job ++ "&l=" ++
            fallbackLocation job) ∧
    (strIncludes (lowerSource job) "linkedin" = false →
      strIncludes (lowerSource job) "arbetsförmedlingen" = false →
      strIncludes (lowerSource job) "platsbanken" = false →
      strIncludes (lowerSource job) "indeed" = false →
        resolveApplyUrl job =
          "https://www.google.com/search?q=" ++ fallbackQuery job ++
            "+job+" ++ fallbackLocation job) := by
  refine ⟨fun h1 => ?_, fun h1 h2 => ?_, fun h1 h2 h3 h4 => ?_,
    fun h1 h2 h3 h4 => ?_⟩
  · simp [resolveApplyUrl, h, h1]
  · rcases h2 with h2 | h2 <;> simp [resolveApplyUrl, h, h1, h2]
  · simp [resolveApplyUrl, h, h1, h2, h3, h4]
  · simp [resolveApplyUrl, h, h1, h2, h3, h4]

/-- A record with an empty `apply_url` coming from LinkedIn (the spec's
fallback-trigger test vector). -/
def linkedinJob : JobAlert :=
  { job_title := "Data Engineer", company := "Acme",
    primary_role := "Data Engineer", location := "Stockholm",
    employment_type := .permanent, seniority := .mid,
    publish_date_utc := "2025-10-03T09:00:00Z", job_age_hours := 12,
    match_score := 88, key_skills := ["SQL", "Azure"], source := "LinkedIn",
    apply_url := "",
    alert_message_en := "Fresh Data Engineer role at Acme.",
    alert_message_sv := "Ny Data Engineer-roll hos Acme." }

theorem resolve_fallback_branches_witness :
    resolveApplyUrl linkedinJob =
      "https://www.linkedin.com/jobs/search/?keywords=Data%20Engineer%20Acme&location=Stockholm" := by
  have h := (resolve_fallback_branches linkedinJob (by decide)).1 (by decide)
  rw [h]
  decide

/-- Modelled from the spec: "Output: `string` — a well-formed URL, never
empty." A well-formed URL is taken, minimally, to be a string carrying an
explicit `http://` or `https://` scheme. Used to compare the spec's
output contract with what `handleApply` actually produces. -/
def spec_wellFormedUrl (s : String) : Bool :=
  List.isPrefixOf "http://".data s.data ||
    List.isPrefixOf "https://".data s.data

theorem isPrefixOf_append_of (pat l r : List Char)
    (h : List.isPrefixOf pat l = true) :
    List.isPrefixOf pat (l ++ r) = true := by
  induction pat generalizing l with
  | nil => simp [List.isPrefixOf]
  | cons p ps ih =>
    cases l with
    | nil => simp [List.isPrefixOf] at h
    | cons c cs =>
      simp only [List.cons_append, List.isPrefixOf, Bool.and_eq_true] at h ⊢
      exact ⟨h.1, ih cs h.2⟩

theorem spec_wellFormedUrl_append (a b : String)
    (h : spec_wellFormedUrl a = true) :
    spec_wellFormedUrl (a ++ b) = true := by
  unfold spec_wellFormedUrl at h ⊢
  rw [String.data_append]
  rcases Bool.or_eq_true_iff.mp h with h1 | h1 <;>
    simp [isPrefixOf_append_of _ _ _ h1]

theorem ne_empty_of_wellFormed (s : String)
    (h : spec_wellFormedUrl s = true) : s ≠ "" := by
  intro he
  rw [he] at h
  exact absurd h (by decide)

/-- A record whose trusted `apply_url` is an arbitrary 7-character string:
the resolver passes it through although it is not a URL. -/
def badUrlJob : JobAlert :=
  { job_title := "Data Analyst", company := "Initech",
    primary_role := "Data Analyst", location := "Malmö",
    employment_type := .contract, seniority := .junior,
    publish_date_utc := "2025-10-02T10:00:00Z", job_age_hours := 30,
    match_score := 77, key_skills := ["Power BI"], source := "Indeed",
    apply_url := "notaurl",
    alert_message_en := "Data Analyst role at Initech.",
    alert_message_sv := "Data Analyst-roll hos Initech." }

/-- C5 counterexample. The claim that every returned string is a
well-formed URL fails: `apply_url = "notaurl"` is non-empty, 7 characters
long and free of "example.com", so `handleApply` opens the string
"notaurl" verbatim, which carries no URL scheme. -/
theorem resolve_wellFormed_counterexample :
    resolveApplyUrl badUrlJob = "notaurl" ∧
      spec_wellFormedUrl (resolveApplyUrl badUrlJob) = false := by
  decide

/-- C5 amended. The Apply-Link Resolver is total (a Lean function)
and never returns the empty string; whenever the fallback is used the
result is moreover a well-formed https URL. In the trusted pass-through
branch the caller-supplied `apply_url` is returned verbatim, so it is
only as well-formed as the producer made it. -/
theorem resolve_total_nonempty (job : JobAlert) :
    resolveApplyUrl job ≠ "" ∧
      (fallbackTriggered job = true →
        spec_wellFormedUrl (resolveApplyUrl job) = true) := by
  by_cases hf : fallbackTriggered job = true
  · have hwf : spec_wellFormedUrl (resolveApplyUrl job) = true := by
      unfold resolveApplyUrl
      rw [if_pos hf]
      split_ifs
      all_goals repeat apply spec_wellFormedUrl_append
      all_goals decide
    exact ⟨ne_empty_of_wellFormed _ hwf, fun _ => hwf⟩
  · have hres : resolveApplyUrl job = job.apply_url := by
      unfold resolveApplyUrl
      rw [if_neg hf]
    refine ⟨?_, fun hc => absurd hc hf⟩
    rw [hres]
    have hf' : fallbackTriggered job = false := by
      cases hb : fallbackTriggered job
      · rfl
      · exact absurd hb hf
    unfold fallbackTriggered at hf'
    intro he
    rw [he] at hf'
    simp at hf'

theorem resolve_total_nonempty_witness :
    resolveApplyUrl linkedinJob ≠ "" ∧
      spec_wellFormedUrl (resolveApplyUrl linkedinJob) = true :=
  ⟨(resolve_total_nonempty linkedinJob).1,
    (resolve_total_nonempty linkedinJob).2 (by decide)⟩

/-! ## App state and handlers (src/App.tsx, src/services/geminiService.ts) -/

/-- The two control-panel tabs of src/App.tsx. -/
inductive Tab
  | feed
  | analyze
deriving DecidableEq, Repr

/-- The React state of `App` (src/App.tsx) that the handlers read and
write. -/
structure AppState where
  jobs : List JobAlert
  isScanning : Bool
  activeTab : Tab
  analyzeText : String
  logs : List String
deriving DecidableEq, Repr

/-- Function `addLog` from src/App.tsx: prepend the timestamped line and keep at
most the 49 previous entries (`prev.slice(0, 49)`). The wall-clock
timestamp produced by `toLocaleTimeString` is a parameter. -/
def addLog (timestamp message : String) (prev : List String) : List String :=
  ("[" ++ timestamp ++ "] " ++ message) :: prev.take 49

/-- Function `addLog` acting on the full state. -/
def addLogS (timestamp message : String) (s : AppState) : AppState :=
  { s with logs := addLog timestamp message s.logs }

/-- Function `scanJobs` from src/services/geminiService.ts. The outbound Gemini
call and `JSON.parse` are platform/network primitives: `callOutcome` is
the settled result of `ai.models.generateContent` (`.error` with the
thrown message, otherwise the optional `response.text`), and `parse`
gives the result of `JSON.parse` on a text (`.error` when it throws).
The source's `try/catch` logs and rethrows, so both failure kinds
propagate to the caller unchanged; a missing or empty `response.text`
returns the empty array before any parse is attempted. -/
def scanJobs (apiKeyPresent : Bool)
    (callOutcome : Except String (Option String))
    (parse : String → Except String (List JobAlert)) :
    Except String (List JobAlert) :=
  if !apiKeyPresent then
    .error "API Key is missing"
  else
    match callOutcome with
    | .error e => .error e
    | .ok none => .ok []
    | .ok (some text) =>
      if text == "" then .ok []
      else
        match parse text with
        | .error e => .error e
        | .ok data => .ok data

/-- Function `handleSimulateScan` from src/App.tsx. `outcome` is the settled
result of the awaited `scanJobs` call, `ts1`–`ts3` the wall-clock
timestamps of the successive `addLog` calls. With no API key configured
only an alert is shown and the state is untouched. -/
def handleSimulateScan (getTime : String → Int) (apiKeyPresent : Bool)
    (outcome : Except String (List JobAlert)) (ts1 ts2 ts3 : String)
    (s : AppState) : AppState :=
  if !apiKeyPresent then s
  else
    let s1 := { s with isScanning := true }
    let s2 := addLogS ts1 "Initiating market scan for current month..." s1
    let s3 := addLogS ts2 "Targeting sources: Platsbanken, LinkedIn, Indeed..." s2
    let s4 :=
      match outcome with
      | .ok [] =>
        addLogS ts3 "Scan complete. No matches found within current month window." s3
      | .ok (r :: rs) =>
        let s' := { s3 with jobs := mergeAndSortJobs getTime (r :: rs) s3.jobs }
        addLogS ts3 ("Scan complete. Discovered " ++ toString (r :: rs).length ++
          " valid matches from current month.") s'
      | .error e => addLogS ts3 ("ERR: Scan failed. " ++ e) s3
    { s4 with isScanning := false }

/-- JS whitespace as recognised by `String.prototype.trim`: ASCII
whitespace and line terminators, NBSP, BOM, and the Unicode space
separators. -/
def isJsWhitespace (c : Char) : Bool :=
  let n := c.toNat
  n == 0x09 || n == 0x0A || n == 0x0B || n == 0x0C || n == 0x0D ||
  n == 0x20 || n == 0xA0 || n == 0x1680 ||
  (0x2000 ≤ n && n ≤ 0x200A) || n == 0x2028 || n == 0x2029 ||
  n == 0x202F || n == 0x205F || n == 0x3000 || n == 0xFEFF

/-- The platform primitive `String.prototype.trim`. -/
def jsTrim (s : String) : String :=
  String.mk
    (((s.data.dropWhile isJsWhitespace).reverse.dropWhile
      isJsWhitespace).reverse)

/-- Function `handleAnalyzeText` from src/App.tsx. `outcome` is the settled
result of the awaited `scanJobs('ANALYZE', analyzeText)` call, `ts1` and
`ts2` the timestamps of the two possible `addLog` calls. -/
def handleAnalyzeText (getTime : String → Int)
    (outcome : Except String (List JobAlert)) (ts1 ts2 : String)
    (s : AppState) : AppState :=
  if jsTrim s.analyzeText == "" then s
  else
    let s1 := { s with isScanning := true }
    let s2 := addLogS ts1 "Analyzing raw job description..." s1
    let s3 :=
      match outcome with
      | .ok [] =>
        addLogS ts2 "Analysis complete. Role rejected (Score < 60 or Non-Sweden/Old)." s2
      | .ok (r :: rs) =>
        let s' := { s2 with jobs := mergeAndSortJobs getTime (r :: rs) s2.jobs }
        let s'' := addLogS ts2 ("Analysis complete. Role qualified with score " ++
          toString r.match_score ++ ".") s'
        { s'' with analyzeText := "", activeTab := .feed }
      | .error e => addLogS ts2 ("ERR: Analysis failed. " ++ e) s2
    { s3 with isScanning := false }

/-- C7. The status log is bounded to the 50 most recent entries:
starting from any log with at most 50 entries, `addLog` yields a log of
at most 50 entries whose head is the new timestamped entry and whose
remainder is exactly the 49 most recent previous entries (the oldest is
discarded once the bound is reached). -/
theorem addLog_bounded (timestamp message : String) (prev : List String)
    (h : prev.length ≤ 50) :
    (addLog timestamp message prev).length ≤ 50 ∧
      (addLog timestamp message prev).head? =
        some ("[" ++ timestamp ++ "] " ++ message) ∧
      (addLog timestamp message prev).tail = prev.take 49 := by
  refine ⟨?_, rfl, rfl⟩
  simp only [addLog, List.length_cons, List.length_take]
  omega

theorem addLog_bounded_witness :
    ["a", "b"].length ≤ 50 ∧
      ((addLog "12:00:00" "hello" ["a", "b"]).length ≤ 50 ∧
        (addLog "12:00:00" "hello" ["a", "b"]).head? =
          some "[12:00:00] hello" ∧
        (addLog "12:00:00" "hello" ["a", "b"]).tail = ["a", "b"].take 49) :=
  ⟨by decide, addLog_bounded "12:00:00" "hello" ["a", "b"] (by decide)⟩

/-- C8. When the `scanJobs` invocation fails, both triggering
handlers leave the job collection (and the analysis text) untouched,
clear the busy flag, and report the failure as exactly one additional
human-readable `ERR` log line on top of the pre-call status lines — the
single consumed outcome is the only interaction, so no retry happens,
and the handler returns normally instead of crashing. -/
theorem handlers_invocation_failure (getTime : String → Int)
    (e ts1 ts2 ts3 : String) (s : AppState)
    (hta : jsTrim s.analyzeText ≠ "") :
    ((handleSimulateScan getTime true (.error e) ts1 ts2 ts3 s).jobs =
        s.jobs ∧
      (handleSimulateScan getTime true (.error e) ts1 ts2 ts3 s).isScanning =
        false ∧
      (handleSimulateScan getTime true (.error e) ts1 ts2 ts3 s).analyzeText =
        s.analyzeText ∧
      (handleSimulateScan getTime true (.error e) ts1 ts2 ts3 s).logs =
        ("[" ++ ts3 ++ "] " ++ ("ERR: Scan failed. " ++ e)) ::
          ("[" ++ ts2 ++ "] " ++ "Targeting sources: Platsbanken, LinkedIn, Indeed...") ::
          ("[" ++ ts1 ++ "] " ++ "Initiating market scan for current month...") ::
          s.logs.take 47) ∧
    ((handleAnalyzeText getTime (.error e) ts1 ts2 s).jobs = s.jobs ∧
      (handleAnalyzeText getTime (.error e) ts1 ts2 s).isScanning = false ∧
      (handleAnalyzeText getTime (.error e) ts1 ts2 s).analyzeText =
        s.analyzeText ∧
      (handleAnalyzeText getTime (.error e) ts1 ts2 s).logs =
        ("[" ++ ts2 ++ "] " ++ ("ERR: Analysis failed. " ++ e)) ::
          ("[" ++ ts1 ++ "] " ++ "Analyzing raw job description...") ::
          s.logs.take 48) := by
  constructor
  · refine ⟨rfl, rfl, rfl, ?_⟩
    simp [handleSimulateScan, addLogS, addLog, List.take_take]
  · have hcond : (jsTrim s.analyzeText == "") = false := by
      simpa using hta
    refine ⟨?_, ?_, ?_, ?_⟩ <;>
      simp [handleAnalyzeText, hcond, addLogS, addLog, List.take_take]

/-- A concrete pre-call state with pending analysis text, used to
instantiate the error-handling theorems. -/
def analyzingState : AppState :=
  { jobs := [linkedinJob], isScanning := false, activeTab := .analyze,
    analyzeText := "Senior Data Engineer at Acme, Stockholm.",
    logs := ["[09:00:00] Waiting."] }

theorem handlers_invocation_failure_witness :
    (handleSimulateScan (fun _ => 0) true (.error "Network error")
        "t1" "t2" "t3" analyzingState).jobs = analyzingState.jobs ∧
      (handleAnalyzeText (fun _ => 0) (.error "Network error")
        "t1" "t2" analyzingState).jobs = analyzingState.jobs :=
  ⟨(handlers_invocation_failure (fun _ => 0) "Network error"
      "t1" "t2" "t3" analyzingState (by decide)).1.1,
    (handlers_invocation_failure (fun _ => 0) "Network error"
      "t1" "t2" "t3" analyzingState (by decide)).2.1⟩

/-- C9 counterexample. The claim that every not-valid-JSON text is
treated as a fatal, propagated failure is false at the empty string: the
empty string is not valid JSON (a JSON parse of it throws), yet the
guard `if (!text) return []` in `scanJobs` runs before any parse is
attempted, so the invocation succeeds with an empty record array instead
of propagating an error — here shown with a parse oracle that rejects
every text, empty included. -/
theorem scanJobs_empty_text_counterexample :
    scanJobs true (.ok (some ""))
        (fun _ => Except.error "SyntaxError: Unexpected end of JSON input") =
      Except.ok [] := rfl

/-- C9 amended. Malformed collaborator output is fatal for the
invocation whenever any parse is attempted, that is, whenever the
returned text is non-empty: the parse error then propagates to the
caller exactly as an invocation failure of the outbound call does, with
no partial recovery and no records returned. Empty or missing response
text never reaches the parser: it yields a successful empty result
instead of an error. -/
theorem scanJobs_malformed_response (text e e2 : String)
    (parse : String → Except String (List JobAlert))
    (ht : text ≠ "") (hp : parse text = .error e) :
    scanJobs true (.ok (some text)) parse = .error e ∧
      scanJobs true (.error e2) parse = .error e2 ∧
      scanJobs true (.ok (some "")) parse = .ok [] ∧
      scanJobs true (.ok none) parse = .ok [] := by
  refine ⟨?_, rfl, rfl, rfl⟩
  simp [scanJobs, ht, hp]

theorem scanJobs_malformed_response_witness :
    scanJobs true (.ok (some "not json"))
        (fun _ => Except.error "SyntaxError: Unexpected token") =
      .error "SyntaxError: Unexpected token" ∧
      scanJobs true (.error "quota exceeded")
          (fun _ => Except.error "SyntaxError: Unexpected token") =
        .error "quota exceeded" ∧
      scanJobs true (.ok (some ""))
          (fun _ => Except.error "SyntaxError: Unexpected token") = .ok [] ∧
      scanJobs true (.ok none)
          (fun _ => Except.error "SyntaxError: Unexpected token") = .ok [] :=
  scanJobs_malformed_response "not json" "SyntaxError: Unexpected token"
    "quota exceeded" (fun _ => .error "SyntaxError: Unexpected token")
    (by decide) rfl

/-- C10. Blank analysis input is a complete no-op: if the pending
analysis text is empty or consists only of whitespace, `handleAnalyzeText`
returns the state unchanged — jobs, logs, busy flag, tab and text are all
untouched — and, since the result is the same for every possible
`outcome`, no collaborator call is consumed and no error can arise. -/
theorem handleAnalyzeText_blank_noop (getTime : String → Int)
    (outcome : Except String (List JobAlert)) (ts1 ts2 : String)
    (s : AppState) (h : s.analyzeText.data.all isJsWhitespace = true) :
    handleAnalyzeText getTime outcome ts1 ts2 s = s := by
  have h1 : s.analyzeText.data.dropWhile isJsWhitespace = [] :=
    List.dropWhile_eq_nil_iff.mpr fun x hx => List.all_eq_true.mp h x hx
  have htrim : jsTrim s.analyzeText = "" := by
    unfold jsTrim
    rw [h1]
    rfl
  simp [handleAnalyzeText, htrim]

/-- A concrete state whose analysis box holds only whitespace. -/
def blankInputState : AppState :=
  { jobs := [passthroughJob], isScanning := false, activeTab := .analyze,
    analyzeText := "   ", logs := ["[08:00:00] Ready."] }

theorem handleAnalyzeText_blank_noop_witness :
    handleAnalyzeText (fun _ => 0) (.ok [linkedinJob]) "t1" "t2"
        blankInputState = blankInputState :=
  handleAnalyzeText_blank_noop (fun _ => 0) (.ok [linkedinJob]) "t1" "t2"
    blankInputState (by decide)
